import Mathlib

/-!
Verification development for the LVIS detection metric wrapper
(`mmeval/metrics/lvis_detection.py`, class `LVISDetection`).

The visible source is a stateful wrapper around the LVIS evaluation engine
(the `lvis` package: `LVIS`, `LVISEval`, `LVISResults`).  The wrapper's data
and control flow are embedded here directly; the engine, which is not part of
the visible source, is abstracted as a record of pure functions (`Engine`),
faithful to the specification's description of it as a deterministic, pure
computation over the predictions and the ground-truth index.

Machine floats of the source are modelled as rationals; Python's `round`
(banker's rounding) and the string formatting of rounded values are modelled
explicitly.  Side effects of the wrapper (temp-directory lifecycle, the
json conversion, logging, per-metric evaluation) are recorded in an explicit
event trace.
-/

/-- Kinds of metrics the wrapper recognises (`metric` argument values
`'bbox' | 'segm' | 'proposal'`). -/
inductive MetricKind where
  | bbox
  | segm
  | proposal
deriving DecidableEq, Repr

/-- The string name of a metric kind, as used in result keys. -/
def metricName : MetricKind → String
  | MetricKind.bbox => "bbox"
  | MetricKind.segm => "segm"
  | MetricKind.proposal => "proposal"

/-- Data carried by a well-formed prediction dict (`img_id`, `bboxes`,
`scores`, `labels`; masks are opaque to the wrapper and omitted).  The
wrapper itself performs no shape validation on these fields. -/
structure PredData where
  img_id : Int
  bboxes : List (ℚ × ℚ × ℚ × ℚ)
  scores : List ℚ
  labels : List Int
deriving DecidableEq, Repr

/-- A prediction record handed to `add`: either a Python dict or a value of
some other type (carrying its type name, as echoed in the assertion
message). -/
inductive Prediction where
  | dict (d : PredData)
  | nonDict (tyName : String)
deriving DecidableEq, Repr

/-- Whether a record is a dict (the only property `add` checks). -/
def Prediction.isDict : Prediction → Bool
  | Prediction.dict _ => true
  | Prediction.nonDict _ => false

/-- The ground-truth index handle (`self.lvis_api`, an `LVIS` object):
category ids with display names, and image ids. -/
structure LVISAPI where
  cats : List (Nat × String)
  imgs : List Nat
deriving DecidableEq, Repr

/-- `LVIS.get_cat_ids()`. -/
def LVISAPI.get_cat_ids (api : LVISAPI) : List Nat := api.cats.map Prod.fst

/-- `LVIS.get_img_ids()`. -/
def LVISAPI.get_img_ids (api : LVISAPI) : List Nat := api.imgs

/-- `LVIS.load_cats([cid])[0]['name']` (unknown ids render as `""`;
the wrapper only calls this on ids obtained from the index itself). -/
def LVISAPI.catName (api : LVISAPI) (cid : Nat) : String :=
  match api.cats.lookup cid with
  | some n => n
  | none => ""

/-- The mutable state of an `LVISDetection` object that the wrapper's
methods read and write: the accumulated prediction buffer `self.results`,
the ground-truth handle `self.lvis_api`, and the lazily initialised
`self.cat_ids` / `self.img_ids`. -/
structure MetricState where
  results : List Prediction
  lvis_api : LVISAPI
  cat_ids : List Nat
  img_ids : List Nat
deriving DecidableEq, Repr

/-- Configuration fixed at `__init__` time.  `outfile_pfx` models the
`outfile_` json-path option of the source (None means a temp directory is
used); defaults mirror the source signature, in particular
`proposal_nums = 300`. -/
structure Config where
  metrics : List MetricKind
  classwise : Bool := false
  proposal_nums : Nat := 300
  metric_items : Option (List String) := none
  format_only : Bool := false
  outfile_pfx : Option String := none
deriving Repr

/-- A value stored in the returned result mapping: a float, a float NaN
(`float('nan')`), a list of formatted strings, or a list of
(category-name, formatted-string) pairs. -/
inductive OutVal where
  | num (v : ℚ)
  | nan
  | strList (l : List String)
  | pairList (l : List (String × String))
deriving DecidableEq, Repr

/-- The ordered result mapping (`OrderedDict`): insertion-ordered
key/value pairs. -/
abbrev OutMap := List (String × OutVal)

/-- Observable side effects of `compute_metric`, in order of occurrence. -/
inductive Event where
  | mkTmpDir
  | results2json
  | logSaved
  | evalStart (m : MetricKind)
  | warnEmpty
  | evaluated (m : MetricKind)
  | printResults (m : MetricKind)
  | cleanup
deriving DecidableEq, Repr

/-- `LVISDetection.add`, run from a given buffer: each record is asserted to
be a dict and appended; the first non-dict record raises `AssertionError`
(returned as `some message`), leaving the records appended so far in the
buffer and processing none of the rest. -/
def addRun : List Prediction → List Prediction → List Prediction × Option String
  | res, [] => (res, none)
  | res, Prediction.dict d :: rest => addRun (res ++ [Prediction.dict d]) rest
  | res, Prediction.nonDict t :: _ =>
      (res, some ("The prediciton should be a sequence of dict, but got a sequence of "
        ++ t ++ "."))

/-- `LVISDetection.add` acting on the object state. -/
def add (s : MetricState) (preds : List Prediction) : MetricState × Option String :=
  let r := addRun s.results preds
  ({ s with results := r.1 }, r.2)

/-- `LVISDetection.add_predictions` delegates to `add`. -/
def add_predictions (s : MetricState) (preds : List Prediction) : MetricState × Option String :=
  add s preds

/-- Floor of a rational as an integer (via flooring integer division). -/
def rfloor (q : ℚ) : ℤ := Int.fdiv q.num (q.den : ℤ)

/-- Round a rational to the nearest integer, ties to even — the rounding of
Python's `round` and of `%.3f` formatting. -/
def halfEvenInt (q : ℚ) : ℤ :=
  let f := rfloor q
  let r := q - (f : ℚ)
  if r < 1/2 then f
  else if 1/2 < r then f + 1
  else if f % 2 = 0 then f
  else f + 1

/-- Python's `round(q, ndigits)`. -/
def pyRound (q : ℚ) (ndigits : Nat) : ℚ :=
  let p : ℚ := (10 : ℚ) ^ ndigits
  ((halfEvenInt (q * p) : ℤ) : ℚ) / p

/-- `float(f'{float(v):.3f}')`: round to three decimals. -/
def round3 (q : ℚ) : ℚ := pyRound q 3

/-- Render the fractional part (two-decimal numerator `fr`, `0 < fr < 100`)
the way Python's `str` renders the float: trailing zero stripped, leading
zero kept. -/
def digitsStr2 (fr : Nat) : String :=
  if fr % 10 = 0 then toString (fr / 10)
  else (if fr < 10 then "0" else "") ++ toString fr

/-- `str(round(q, 2))` for a finite value: at most two decimals, at least
one digit after the point. -/
def pyFloatStr2 (q : ℚ) : String :=
  let n : ℤ := halfEvenInt (q * 100)
  let sgn := if n < 0 then "-" else ""
  let a := n.natAbs
  sgn ++ toString (a / 100) ++ "." ++ (if a % 100 = 0 then "0" else digitsStr2 (a % 100))

/-- `f'{round(val * 100, 2)}'`: the metric value as a percentage string. -/
def fmtPercent (v : ℚ) : String := pyFloatStr2 (v * 100)

/-- The per-category formatted entry `f'{round(ap * 100, 2)}'`, where `ap`
may be `float('nan')` (rendered `'nan'`). -/
def fmtAp : Option ℚ → String
  | some v => fmtPercent v
  | none => "nan"

/-- Mean of a list of rationals. -/
def listMean (l : List ℚ) : ℚ := l.sum / (l.length : ℚ)

/-- `precision[precision > -1]`: the valid samples of a precision slice. -/
def validPrec (slice : List ℚ) : List ℚ :=
  slice.filter (fun x => decide ((-1 : ℚ) < x))

/-- Per-category precision (source lines 278-283): the mean of the valid
samples when any exist, `float('nan')` (here `none`) otherwise. -/
def perCatAP (slice : List ℚ) : Option ℚ :=
  if validPrec slice = [] then none
  else some (listMean (validPrec slice))

/-- Embed a per-category precision into the result mapping: `nan` stays a
float NaN, a number stays a float. -/
def apToOutVal : Option ℚ → OutVal
  | some v => OutVal.num v
  | none => OutVal.nan

/-- Modelled from the spec: the core LVIS evaluation engine (GroundTruthIndex,
IoUMatcher, PrecisionRecallAccumulator, Summarizer — spec §4) is not part of
the visible source.  It is abstracted as a record of pure functions, which is
faithful to the spec's §5 description of the engine as a pure, deterministic,
synchronous computation of its inputs with no cross-call state.
`hasDets api res m` models whether constructing `LVISResults` from the json
conversion of `res` for metric `m` succeeds (`False` models the `IndexError`
raised on an empty result set); `run api imgIds res m maxDets` models
`LVISEval(...).getresults()` with `params.imgIds = imgIds` and, when
`maxDets = some k`, `params.max_dets = k`; `prec api imgIds res m idx`
models the flattened area-range-all precision slice
`precisions[:, :, idx, 0]` of `lvis_eval.eval['precision']`. -/
structure Engine where
  hasDets : LVISAPI → List Prediction → MetricKind → Bool
  run : LVISAPI → List Nat → List Prediction → MetricKind → Option Nat → List (String × ℚ)
  prec : LVISAPI → List Nat → List Prediction → MetricKind → Nat → List ℚ

/-- The default metric-item list used for `bbox`/`segm` when
`metric_items is None` (source lines 250-253). -/
def defaultAPItems : List String :=
  ["AP", "AP50", "AP75", "APs", "APm", "APl", "APr", "APc", "APf"]

/-- The default metric-item list used for `proposal` when
`metric_items is None` (source lines 232-237). -/
def proposalItems (k : Nat) : List String :=
  ["AR@" ++ toString k, "ARs@" ++ toString k,
   "ARm@" ++ toString k, "ARl@" ++ toString k]

/-- Result key of a per-category precision entry. -/
def classwiseKey (m : MetricKind) (api : LVISAPI) (cid : Nat) : String :=
  metricName m ++ "_" ++ LVISAPI.catName api cid ++ "_precision"

/-- The `proposal` branch of the per-metric loop (source lines 226-241):
`max_dets` is set to `proposal_nums`, and every engine result whose key is in
the (possibly defaulted) item list is recorded, rounded to three decimals,
under its own key. -/
def evalProposal (cfg : Config) (eng : Engine) (api : LVISAPI) (img : List Nat)
    (results : List Prediction) : OutMap × List Event :=
  let rs := Engine.run eng api img results MetricKind.proposal (some cfg.proposal_nums)
  let items := cfg.metric_items.getD (proposalItems cfg.proposal_nums)
  ((rs.filter (fun p => decide (p.1 ∈ items))).map
      (fun p => (p.1, OutVal.num (round3 p.2))),
   [Event.evaluated MetricKind.proposal, Event.printResults MetricKind.proposal])

/-- The `bbox`/`segm` branch of the per-metric loop (source lines 243-289):
selected engine results are stored as `<metric>_<item>` floats, with the
parallel `<metric>_result` list of formatted percentage strings; when
`classwise` is set, per-category precision entries and the
`<metric>_classwise_result` pair list are appended. -/
def evalAP (cfg : Config) (eng : Engine) (api : LVISAPI) (cat img : List Nat)
    (results : List Prediction) (m : MetricKind) : OutMap × List Event :=
  let rs := Engine.run eng api img results m none
  let items := cfg.metric_items.getD defaultAPItems
  let sel := rs.filter (fun p => decide (p.1 ∈ items))
  let base := sel.map (fun p => (metricName m ++ "_" ++ p.1, OutVal.num p.2))
      ++ [(metricName m ++ "_result", OutVal.strList (sel.map (fun p => fmtPercent p.2)))]
  let cw :=
    if cfg.classwise then
      (cat.enum.map (fun ic =>
        (classwiseKey m api ic.2,
         apToOutVal (perCatAP (Engine.prec eng api img results m ic.1)))))
      ++ [(metricName m ++ "_classwise_result",
           OutVal.pairList (cat.enum.map (fun ic =>
             (LVISAPI.catName api ic.2,
              fmtAp (perCatAP (Engine.prec eng api img results m ic.1))))))]
    else []
  (base ++ cw, [Event.evaluated m, Event.printResults m])

/-- One iteration body of the per-metric loop: `iou_type` dispatch
(`'bbox' if metric == 'proposal' else metric`) selects the branch. -/
def evalOne (cfg : Config) (eng : Engine) (api : LVISAPI) (cat img : List Nat)
    (results : List Prediction) (m : MetricKind) : OutMap × List Event :=
  if m = MetricKind.proposal then evalProposal cfg eng api img results
  else evalAP cfg eng api cat img results m

/-- The `for metric in self.metrics` loop of `compute_metric` (source lines
212-294): each metric logs an `Evaluating ...` message; if `LVISResults`
raises `IndexError` (empty result set) a warning is logged and the loop
BREAKS — the remaining metrics are not evaluated. -/
def metricLoop (cfg : Config) (eng : Engine) (api : LVISAPI) (cat img : List Nat)
    (results : List Prediction) : List MetricKind → OutMap × List Event
  | [] => ([], [])
  | m :: rest =>
    if Engine.hasDets eng api results m then
      let r1 := evalOne cfg eng api cat img results m
      let r2 := metricLoop cfg eng api cat img results rest
      (r1.1 ++ r2.1, [Event.evalStart m] ++ r1.2 ++ r2.2)
    else
      ([], [Event.evalStart m, Event.warnEmpty])

/-- Lazy initialisation of `self.cat_ids` / `self.img_ids`: kept when
non-empty, fetched from the ground-truth handle when empty. -/
def effList (cur fallback : List Nat) : List Nat :=
  if cur.isEmpty then fallback else cur

/-- `LVISDetection.compute_metric` (source lines 175-297).  Returns the
updated object state, the result mapping and the event trace.  When
`outfile_pfx` is `none` a temp directory is created; in format-only mode
the function returns right after the json conversion — note that this
early return does NOT emit the cleanup event; the normal return path
cleans the temp directory up at the very end. -/
def compute_metric (cfg : Config) (eng : Engine) (s : MetricState)
    (results : List Prediction) : MetricState × OutMap × List Event :=
  let evs0 := if cfg.outfile_pfx.isNone then [Event.mkTmpDir] else []
  let cat := effList s.cat_ids (LVISAPI.get_cat_ids s.lvis_api)
  let img := effList s.img_ids (LVISAPI.get_img_ids s.lvis_api)
  let s1 : MetricState := { s with cat_ids := cat, img_ids := img }
  if cfg.format_only then
    (s1, [], evs0 ++ [Event.results2json, Event.logSaved])
  else
    let r := metricLoop cfg eng s.lvis_api cat img results cfg.metrics
    (s1, r.1,
     (evs0 ++ [Event.results2json]) ++ r.2
       ++ (if cfg.outfile_pfx.isNone then [Event.cleanup] else []))

/-- `LVISDetection.__call__` (source lines 154-173): cache the four state
fields, reset the buffer, `add` the passed predictions, compute the metric
over the fresh buffer, then restore the cached state.  If `add` raises
(non-dict record), the exception propagates before the restore and the
caller sees no result (`none`). -/
def callStateless (cfg : Config) (eng : Engine) (s : MetricState)
    (preds : List Prediction) : MetricState × Option (OutMap × List Event) :=
  match addRun ([] : List Prediction) preds with
  | (buf, some _) => ({ s with results := buf }, none)
  | (buf, none) =>
    let t := compute_metric cfg eng { s with results := buf } buf
    ({ t.1 with
        results := s.results
        lvis_api := s.lvis_api
        cat_ids := s.cat_ids
        img_ids := s.img_ids }, some t.2)

/-! ### Helper lemmas and concrete fixtures -/

/-- `add` on a sequence of dicts appends them all and raises nothing. -/
theorem addRun_ok (res preds : List Prediction)
    (h : ∀ p ∈ preds, Prediction.isDict p = true) :
    addRun res preds = (res ++ preds, none) := by
  induction preds generalizing res with
  | nil => simp [addRun]
  | cons p rest ih =>
    cases p with
    | dict d =>
      have hrec := ih (res ++ [Prediction.dict d]) (fun q hq => h q (by simp [hq]))
      simp [addRun, hrec]
    | nonDict t =>
      have hc := h (Prediction.nonDict t) (by simp)
      simp [Prediction.isDict] at hc

/-- Lazy initialisation stabilises after one step. -/
theorem effList_idem (cur fb : List Nat) :
    effList (effList cur fb) fb = effList cur fb := by
  unfold effList
  by_cases h : cur.isEmpty <;> simp [h]

/-- The state returned by `compute_metric` is the input state with the
lazily initialised id lists. -/
theorem compute_metric_state (cfg : Config) (eng : Engine) (s : MetricState)
    (results : List Prediction) :
    (compute_metric cfg eng s results).1 =
      { s with
          cat_ids := effList s.cat_ids (LVISAPI.get_cat_ids s.lvis_api)
          img_ids := effList s.img_ids (LVISAPI.get_img_ids s.lvis_api) } := by
  unfold compute_metric
  by_cases hf : cfg.format_only <;> simp [hf]

/-- A concrete well-formed prediction dict. -/
def predW1 : Prediction :=
  Prediction.dict { img_id := 1, bboxes := [(0, 0, 1, 1)], scores := [1/2], labels := [0] }

/-- Another concrete well-formed prediction dict. -/
def predW2 : Prediction :=
  Prediction.dict { img_id := 2, bboxes := [], scores := [], labels := [] }

/-- A dict whose boxes/scores/labels lengths do not match. -/
def predMismatch : Prediction :=
  Prediction.dict { img_id := 3, bboxes := [], scores := [1/2], labels := [] }

/-- A concrete ground-truth handle. -/
def apiW : LVISAPI := { cats := [(1, "cat"), (2, "dog")], imgs := [10, 11] }

/-- A concrete object state with a non-empty accumulated buffer. -/
def stW : MetricState :=
  { results := [predW1], lvis_api := apiW, cat_ids := [], img_ids := [] }

/-- A concrete default-like configuration. -/
def cfgW : Config := { metrics := [MetricKind.bbox] }

/-- A concrete format-only configuration. -/
def cfgFmt : Config := { metrics := [MetricKind.bbox], format_only := true }

/-- A concrete engine with non-empty results everywhere. -/
def engW : Engine :=
  { hasDets := fun _ _ _ => true
    run := fun _ _ _ _ _ => [("AP", 1/2)]
    prec := fun _ _ _ _ _ => [1/2] }

/-! ### Claims -/

/-- C10: for every prior state and every sequence of dict predictions,
`add` (and `add_predictions`) appends each prediction to the internal
results list in input order: afterwards the internal list equals the prior
list followed by the new predictions, no prior element modified or
removed, and no error is raised. -/
theorem add_appends_in_order (s : MetricState) (preds : List Prediction)
    (h : ∀ p ∈ preds, Prediction.isDict p = true) :
    (add s preds).1.results = s.results ++ preds ∧
    (add s preds).2 = none ∧
    add_predictions s preds = add s preds := by
  refine ⟨?_, ?_, rfl⟩ <;> simp [add, addRun_ok s.results preds h]

/-- Witness for C10: `add` at a concrete state and dict list. -/
theorem add_appends_in_order_witness :
    (add stW [predW2]).1.results = stW.results ++ [predW2] ∧
    (add stW [predW2]).2 = none := by
  exact ⟨(add_appends_in_order stW [predW2] (by decide)).1,
    (add_appends_in_order stW [predW2] (by decide)).2.1⟩

/-- C5 counterexample: in the sequence `[dict, non-dict, dict]` the
assertion on the non-dict record raises, and the trailing valid record is
never added — the run does not continue over the remaining valid records.
Moreover a record with mismatched scores/labels lengths is accepted
unchecked rather than rejected. -/
theorem malformed_aborts_counterexample :
    (addRun [] [predW1, Prediction.nonDict "list", predW2]).2.isSome = true ∧
    predW2 ∉ (addRun [] [predW1, Prediction.nonDict "list", predW2]).1 ∧
    addRun [] [predMismatch] = ([predMismatch], none) := by
  refine ⟨rfl, by decide, rfl⟩

/-- C5 amended: `add` checks only that each record is a dict; the first
non-dict record raises an assertion error that aborts the whole call —
records before it remain appended, records after it are not processed —
and no boxes/scores/labels length validation is performed at all. -/
theorem add_aborts_at_first_non_dict (res pre post : List Prediction) (t : String)
    (hpre : ∀ p ∈ pre, Prediction.isDict p = true) :
    (addRun res (pre ++ Prediction.nonDict t :: post)).1 = res ++ pre ∧
    (addRun res (pre ++ Prediction.nonDict t :: post)).2 =
      some ("The prediciton should be a sequence of dict, but got a sequence of "
        ++ t ++ ".") := by
  induction pre generalizing res with
  | nil => simp [addRun]
  | cons p ps ih =>
    cases p with
    | dict d =>
      have hrec := ih (res ++ [Prediction.dict d]) (fun q hq => hpre q (by simp [hq]))
      refine ⟨?_, ?_⟩ <;> simp [addRun, hrec.1, hrec.2]
    | nonDict t2 =>
      have hc := hpre (Prediction.nonDict t2) (by simp)
      simp [Prediction.isDict] at hc

/-- Witness for the amended C5 at a concrete sequence. -/
theorem add_aborts_witness :
    (addRun [] ([predW1] ++ Prediction.nonDict "list" :: [predW2])).1 = [] ++ [predW1] := by
  exact (add_aborts_at_first_non_dict [] [predW1] [predW2] "list" (by decide)).1

/-- C1: for every prior state and every sequence of dict predictions, the
stateless `__call__` computes the metrics over exactly the passed-in
predictions, and on return the accumulated buffer, the ground-truth
handle, `cat_ids` and `img_ids` all equal their values before the call. -/
theorem call_restores_state (cfg : Config) (eng : Engine) (s : MetricState)
    (preds : List Prediction) (h : ∀ p ∈ preds, Prediction.isDict p = true) :
    (callStateless cfg eng s preds).1 = s ∧
    (callStateless cfg eng s preds).2 =
      some (compute_metric cfg eng { s with results := preds } preds).2 := by
  have hrun : addRun ([] : List Prediction) preds = (preds, none) := by
    simpa using addRun_ok [] preds h
  unfold callStateless
  rw [hrun]
  exact ⟨rfl, rfl⟩

/-- Witness for C1 at a concrete state (with a non-empty prior buffer)
and concrete predictions. -/
theorem call_restores_state_witness :
    (callStateless cfgW engW stW [predW2]).1 = stW := by
  exact (call_restores_state cfgW engW stW [predW2] (by decide)).1

/-- C2: for a fixed prediction list and a fixed ground-truth index, two
evaluation runs produce identical metric outputs: running `compute_metric`
a second time from the state the first run left behind returns the same
mapping (lazy id initialisation is stable), and a repeated stateless
`__call__` returns the same result as the first. -/
theorem evaluation_deterministic (cfg : Config) (eng : Engine) (s : MetricState)
    (res preds : List Prediction) :
    (compute_metric cfg eng (compute_metric cfg eng s res).1 res).2.1 =
      (compute_metric cfg eng s res).2.1 ∧
    (callStateless cfg eng (callStateless cfg eng s preds).1 preds).2 =
      (callStateless cfg eng s preds).2 := by
  constructor
  · rw [compute_metric_state]
    unfold compute_metric
    by_cases hf : cfg.format_only <;> simp [hf, effList_idem]
  · rcases he : addRun ([] : List Prediction) preds with ⟨buf, err⟩
    cases err with
    | some msg =>
      unfold callStateless
      rw [he]
    | none =>
      unfold callStateless
      rw [he]

/-- C3: in format-only mode `compute_metric` performs the json conversion,
returns an empty result mapping and evaluates no metric. -/
theorem format_only_converts_only (cfg : Config) (eng : Engine) (s : MetricState)
    (res : List Prediction) (h : cfg.format_only = true) :
    (compute_metric cfg eng s res).2.1 = [] ∧
    Event.results2json ∈ (compute_metric cfg eng s res).2.2 ∧
    ∀ m, Event.evalStart m ∉ (compute_metric cfg eng s res).2.2 := by
  unfold compute_metric
  by_cases ho : cfg.outfile_pfx.isNone <;> simp [h, ho]

/-- Witness for C3 at a concrete format-only configuration. -/
theorem format_only_witness :
    (compute_metric cfgFmt engW stW []).2.1 = [] ∧
    Event.results2json ∈ (compute_metric cfgFmt engW stW []).2.2 := by
  exact ⟨(format_only_converts_only cfgFmt engW stW [] rfl).1,
    (format_only_converts_only cfgFmt engW stW [] rfl).2.1⟩

/-- A concrete two-metric configuration. -/
def cfgC4 : Config := { metrics := [MetricKind.bbox, MetricKind.segm] }

/-- A concrete engine whose bbox result set is empty but whose segm result
set is not. -/
def engC4 : Engine :=
  { hasDets := fun _ _ m => m == MetricKind.segm
    run := fun _ _ _ _ _ => [("AP", 1/2)]
    prec := fun _ _ _ _ _ => [1/2] }

/-- C4 counterexample: with configured metrics `[bbox, segm]`, where bbox
yields an empty result set but segm would yield results (as evaluating
segm alone shows), the run returns an empty mapping — the segm results do
NOT appear, refuting the claim that the run proceeds to the next
configured metric. -/
theorem empty_metric_counterexample :
    (compute_metric cfgC4 engC4 stW []).2.1 = [] ∧
    (compute_metric { cfgC4 with metrics := [MetricKind.segm] } engC4 stW []).2.1 ≠ [] := by
  constructor
  · rfl
  · intro h
    have hlen : ((compute_metric { cfgC4 with metrics := [MetricKind.segm] }
        engC4 stW []).2.1).length = 2 := by rfl
    rw [h] at hlen
    simp at hlen

/-- C4 amended: when a metric's result set is empty after filtering, a
diagnostic warning is emitted and the per-metric loop BREAKS: that metric
reports nothing and the remaining configured metrics are skipped; only
the metrics evaluated before it keep their results. -/
theorem empty_metric_warns_and_stops (cfg : Config) (eng : Engine) (api : LVISAPI)
    (cat img : List Nat) (res : List Prediction) (pre post : List MetricKind)
    (m : MetricKind)
    (hpre : ∀ x ∈ pre, Engine.hasDets eng api res x = true)
    (hm : Engine.hasDets eng api res m = false) :
    metricLoop cfg eng api cat img res (pre ++ m :: post) =
      ((metricLoop cfg eng api cat img res pre).1,
       (metricLoop cfg eng api cat img res pre).2
         ++ [Event.evalStart m, Event.warnEmpty]) := by
  induction pre with
  | nil => simp [metricLoop, hm]
  | cons x xs ih =>
    have hx := hpre x (by simp)
    have ih2 := ih (fun y hy => hpre y (by simp [hy]))
    simp [metricLoop, hx, ih2]

/-- Witness for the amended C4 at a concrete configuration and engine. -/
theorem empty_metric_warns_witness :
    metricLoop cfgC4 engC4 apiW [] [] [] ([] ++ MetricKind.bbox :: [MetricKind.segm]) =
      ((metricLoop cfgC4 engC4 apiW [] [] [] []).1,
       (metricLoop cfgC4 engC4 apiW [] [] [] []).2
         ++ [Event.evalStart MetricKind.bbox, Event.warnEmpty]) := by
  exact empty_metric_warns_and_stops cfgC4 engC4 apiW [] [] [] [] [MetricKind.segm]
    MetricKind.bbox (by simp) rfl

/-- A concrete classwise configuration. -/
def cfgCW : Config := { metrics := [MetricKind.bbox], classwise := true }

/-- C6: for every evaluated bbox/segm metric (any configuration, classwise
reporting on or off), the produced mapping starts with exactly the selected
`<metric>_<item>` float entries, in engine order, followed immediately by
the parallel `<metric>_result` entry carrying those same values formatted
as percentage strings (each value multiplied by 100 and rounded to two
decimals), in the same order; `rest` is whatever the classwise block
appends afterwards (empty when classwise is off). -/
theorem metric_result_parallel (cfg : Config) (eng : Engine) (api : LVISAPI)
    (cat img : List Nat) (res : List Prediction) (m : MetricKind)
    (hm : m ≠ MetricKind.proposal) :
    ∃ rest, (evalOne cfg eng api cat img res m).1 =
      ((Engine.run eng api img res m none).filter
          (fun p => decide (p.1 ∈ cfg.metric_items.getD defaultAPItems))).map
        (fun p => (metricName m ++ "_" ++ p.1, OutVal.num p.2))
      ++ [(metricName m ++ "_result",
           OutVal.strList (((Engine.run eng api img res m none).filter
              (fun p => decide (p.1 ∈ cfg.metric_items.getD defaultAPItems))).map
             (fun p => fmtPercent p.2)))]
      ++ rest := by
  unfold evalOne evalAP
  rw [if_neg hm]
  refine ⟨if cfg.classwise = true then
      cat.enum.map (fun ic => (classwiseKey m api ic.2,
        apToOutVal (perCatAP (Engine.prec eng api img res m ic.1))))
      ++ [(metricName m ++ "_classwise_result",
           OutVal.pairList (cat.enum.map (fun ic => (LVISAPI.catName api ic.2,
             fmtAp (perCatAP (Engine.prec eng api img res m ic.1))))))]
    else [], ?_⟩
  simp

/-- Witness for C6 at a concrete engine and a classwise configuration:
the first two entries of the bbox section are the selected float entry and
the parallel formatted-percentage entry. -/
theorem metric_result_parallel_witness :
    ((evalOne cfgCW engW apiW [1] [] [] MetricKind.bbox).1.take 2) =
      [("bbox_AP", OutVal.num (1/2)),
       ("bbox_result", OutVal.strList [fmtPercent (1/2)])] := by
  rcases metric_result_parallel cfgCW engW apiW [1] [] [] MetricKind.bbox
    (by decide) with ⟨rest, hrest⟩
  rw [hrest]
  rfl

/-- C7: in classwise reporting, a category with at least one valid
precision sample (value above -1 in its area-range-all slice) reports the
mean of those samples, a category with no valid sample reports NaN, the
corresponding `<metric>_<name>_precision` entry carries exactly that value,
and NaN is distinct from every float — in particular from zero. -/
theorem classwise_mean_or_nan (cfg : Config) (eng : Engine) (api : LVISAPI)
    (cat img : List Nat) (res : List Prediction) (m : MetricKind) (idx cid : Nat)
    (hm : m ≠ MetricKind.proposal) (hcw : cfg.classwise = true)
    (hmem : (idx, cid) ∈ cat.enum) :
    (validPrec (Engine.prec eng api img res m idx) ≠ [] →
        perCatAP (Engine.prec eng api img res m idx) =
          some (listMean (validPrec (Engine.prec eng api img res m idx)))) ∧
    (validPrec (Engine.prec eng api img res m idx) = [] →
        apToOutVal (perCatAP (Engine.prec eng api img res m idx)) = OutVal.nan) ∧
    (classwiseKey m api cid,
        apToOutVal (perCatAP (Engine.prec eng api img res m idx)))
      ∈ (evalOne cfg eng api cat img res m).1 ∧
    ∀ q : ℚ, OutVal.nan ≠ OutVal.num q := by
  refine ⟨?_, ?_, ?_, ?_⟩
  · intro hv
    simp [perCatAP, hv]
  · intro hv
    simp [perCatAP, hv, apToOutVal]
  · unfold evalOne evalAP
    rw [if_neg hm]
    simp only [hcw, ite_true, List.mem_append]
    right
    left
    exact List.mem_map.mpr ⟨(idx, cid), hmem, rfl⟩
  · intro q
    simp

/-- Witness for C7 at a concrete classwise run. -/
theorem classwise_mean_or_nan_witness :
    (classwiseKey MetricKind.bbox apiW 1,
        apToOutVal (perCatAP (Engine.prec engW apiW [] [] MetricKind.bbox 0)))
      ∈ (evalOne cfgCW engW apiW [1] [] [] MetricKind.bbox).1 := by
  exact (classwise_mean_or_nan cfgCW engW apiW [1] [] [] MetricKind.bbox 0 1
    (by decide) rfl (by decide)).2.2.1

/-- C8: for the `proposal` metric the evaluation's max-detections cutoff is
set to the configured `proposal_nums` (whose default is 300), and with no
explicit metric-item allow-list the reported entries are exactly the
engine's `AR@K`, `ARs@K`, `ARm@K`, `ARl@K` results (K the configured
cutoff), each value rounded to three decimals.  The engine-side fact that
its proposal summary carries exactly those keys is taken as the
`hkeys` hypothesis, modelled from the spec's Summarizer description. -/
theorem proposal_default_items (cfg : Config) (eng : Engine) (api : LVISAPI)
    (cat img : List Nat) (res : List Prediction)
    (hitems : cfg.metric_items = none)
    (hkeys : (Engine.run eng api img res MetricKind.proposal
        (some cfg.proposal_nums)).map Prod.fst = proposalItems cfg.proposal_nums) :
    (evalOne cfg eng api cat img res MetricKind.proposal).1 =
      (Engine.run eng api img res MetricKind.proposal (some cfg.proposal_nums)).map
        (fun p => (p.1, OutVal.num (round3 p.2))) ∧
    ({ metrics := [MetricKind.proposal] } : Config).proposal_nums = 300 := by
  constructor
  · unfold evalOne evalProposal
    rw [if_pos rfl]
    simp only [hitems, Option.getD_none]
    have hall : ∀ p ∈ Engine.run eng api img res MetricKind.proposal
        (some cfg.proposal_nums),
        decide (p.1 ∈ proposalItems cfg.proposal_nums) = true := by
      intro p hp
      rw [decide_eq_true_eq, ← hkeys]
      exact List.mem_map_of_mem Prod.fst hp
    rw [List.filter_eq_self.mpr (fun a ha => hall a ha)]
  · rfl

/-- A concrete proposal configuration. -/
def cfgP : Config := { metrics := [MetricKind.proposal] }

/-- A concrete engine whose proposal summary has exactly the AR items. -/
def engP : Engine :=
  { hasDets := fun _ _ _ => true
    run := fun _ _ _ m k =>
      match m, k with
      | MetricKind.proposal, some n =>
        [("AR@" ++ toString n, 1/2), ("ARs@" ++ toString n, 1/4),
         ("ARm@" ++ toString n, 1/4), ("ARl@" ++ toString n, 1/4)]
      | _, _ => []
    prec := fun _ _ _ _ _ => [] }

/-- Witness for C8 at a concrete proposal run with the default cutoff. -/
theorem proposal_default_items_witness :
    (evalOne cfgP engP apiW [] [] [] MetricKind.proposal).1 =
      (Engine.run engP apiW [] [] MetricKind.proposal (some cfgP.proposal_nums)).map
        (fun p => (p.1, OutVal.num (round3 p.2))) := by
  exact (proposal_default_items cfgP engP apiW [] [] [] rfl rfl).1

/-- C9 counterexample: with no configured output path and format-only mode
on, the temp directory is created but the early return path never emits
the cleanup — refuting cleanup on every return path. -/
theorem tmpdir_cleanup_counterexample :
    cfgFmt.outfile_pfx = none ∧
    Event.mkTmpDir ∈ (compute_metric cfgFmt engW stW []).2.2 ∧
    Event.cleanup ∉ (compute_metric cfgFmt engW stW []).2.2 := by
  refine ⟨rfl, by decide, by decide⟩

/-- C9 amended: when no output-file path is configured, the result files
go to a freshly created temp directory, which is cleaned up as the last
action before the NORMAL (non-format-only) return; the format-only early
return skips the explicit cleanup. -/
theorem tmpdir_cleaned_on_normal_return (cfg : Config) (eng : Engine)
    (s : MetricState) (res : List Prediction)
    (hout : cfg.outfile_pfx = none) (hfmt : cfg.format_only = false) :
    Event.mkTmpDir ∈ (compute_metric cfg eng s res).2.2 ∧
    ∃ l, (compute_metric cfg eng s res).2.2 = l ++ [Event.cleanup] := by
  unfold compute_metric
  simp only [hout, hfmt, Option.isNone_none, ite_true, Bool.false_eq_true, if_false]
  constructor
  · simp
  · exact ⟨_, rfl⟩

/-- Witness for the amended C9 at a concrete default configuration. -/
theorem tmpdir_cleaned_witness :
    Event.mkTmpDir ∈ (compute_metric cfgW engW stW []).2.2 ∧
    Event.cleanup ∈ (compute_metric cfgW engW stW []).2.2 := by
  refine ⟨(tmpdir_cleaned_on_normal_return cfgW engW stW [] rfl rfl).1, ?_⟩
  rcases (tmpdir_cleaned_on_normal_return cfgW engW stW [] rfl rfl).2 with ⟨l, hl⟩
  rw [hl]
  simp
